import Mathlib

set_option linter.unnecessarySeqFocus false

/-!
Shallow embedding of `src/TRVAnalysis.py`: a batch script that groups
measurement rows by parameter, derives a padded display window from the
group's specification limits, classifies each measurement against the
window, derives histogram bin edges from the tolerance range, and saves
one chart per group.  Numeric values are modelled as exact rationals;
cells that fail numeric coercion (`pd.to_numeric(..., errors='coerce')`
produces NaN there) are modelled as `none : Option ℚ`, since NaN fails
every comparison and is dropped by `dropna`.
-/

namespace TRVAnalysis

/-- Source line 11: `BIN_SIZE_FRACTION = 1/20`. -/
def BIN_SIZE_FRACTION : ℚ := 1/20

/-- Source lines 65-66 use the literal `0.1` as the padding fraction. -/
def padFraction : ℚ := 1/10

/-! ### sanitize_filename (source lines 13-20) -/

/-- Character class of the regex `[a-zA-Z0-9_]` (the complement of the
pattern `[^a-zA-Z0-9_]` on line 15). -/
def allowedChar (c : Char) : Bool :=
  ('a' ≤ c && c ≤ 'z') || ('A' ≤ c && c ≤ 'Z') || ('0' ≤ c && c ≤ '9') || c == '_'

/-- Source line 15: `re.sub(r'[^a-zA-Z0-9_]', '_', filename)` replaces every
character outside the allowed class by an underscore. -/
def replaceDisallowed (l : List Char) : List Char :=
  l.map (fun c => if allowedChar c then c else '_')

/-- Source line 17: `re.sub(r'_+', '_', sanitized)` collapses every maximal
run of consecutive underscores into a single underscore. -/
def collapseU : List Char → List Char
  | [] => []
  | [c] => [c]
  | c1 :: c2 :: cs =>
    if c1 = '_' ∧ c2 = '_' then collapseU (c2 :: cs)
    else c1 :: collapseU (c2 :: cs)

/-- Drop leading underscores (one side of Python `str.strip('_')`). -/
def stripLead (l : List Char) : List Char :=
  l.dropWhile (fun c => c == '_')

/-- Source line 19: `sanitized.strip('_')` removes all leading and trailing
underscores. -/
def stripU (l : List Char) : List Char :=
  (stripLead ((stripLead l).reverse)).reverse

/-- Composition of the three steps of `sanitize_filename` on character
lists. -/
def sanitizeList (l : List Char) : List Char :=
  stripU (collapseU (replaceDisallowed l))

/-- Source lines 13-20: `sanitize_filename`. -/
def sanitize_filename (s : String) : String :=
  ⟨sanitizeList s.data⟩

/-! ### Column renaming and the required-column check (source lines 26-40) -/

/-- Source lines 26-29: `column_mapping`. -/
def column_mapping : List (String × String) :=
  [("serial_num", "serial_name"), ("param_value_float", "value")]

/-- Source lines 32-34: each mapping entry whose old name is present renames
that column. -/
def renameColumns (cols : List String) : List String :=
  column_mapping.foldl
    (fun cs p =>
      if p.1 ∈ cs then cs.map (fun c => if c = p.1 then p.2 else c) else cs)
    cols

/-- Source line 37: `required_columns`. -/
def required_columns : List String :=
  ["serial_name", "parameter_name", "description", "value", "lower_limit",
   "upper_limit"]

/-- Source line 39: the required columns absent from the table. -/
def missing_columns (cols : List String) : List String :=
  required_columns.filter (fun c => ¬ c ∈ cols)

/-- Source lines 38-40: raise `ValueError` naming the missing columns when
not all required columns are present; the error value carries the exact
list the message interpolates. -/
def checkColumns (cols : List String) : Except (List String) Unit :=
  if required_columns.all (fun c => cols.contains c) then Except.ok ()
  else Except.error (missing_columns cols)

/-! ### Limit window derivation (source lines 57-66) -/

structure LimitWindow where
  lower : ℚ
  upper : ℚ
  warned : Bool
  y_min : ℚ
  y_max : ℚ
  deriving Repr, DecidableEq

/-- Source lines 60-66: swap inverted limits (emitting a warning), then pad
by `0.1` of the tolerance range on each side. -/
def deriveWindow (lower_limit upper_limit : ℚ) : LimitWindow :=
  if lower_limit > upper_limit then
    { lower := upper_limit, upper := lower_limit, warned := true,
      y_min := upper_limit - (lower_limit - upper_limit) * padFraction,
      y_max := lower_limit + (lower_limit - upper_limit) * padFraction }
  else
    { lower := lower_limit, upper := upper_limit, warned := false,
      y_min := lower_limit - (upper_limit - lower_limit) * padFraction,
      y_max := upper_limit + (upper_limit - lower_limit) * padFraction }

/-! ### Classification (source lines 75-93) -/

/-- Values surviving numeric coercion (`dropna` after `pd.to_numeric`,
source lines 117-118). -/
def numericValues (vals : List (Option ℚ)) : List ℚ :=
  vals.filterMap id

/-- Source line 80: `values[(values <= y_max) & (values >= y_min)]`.  A NaN
(non-numeric) entry fails both comparisons and is excluded. -/
def in_bounds (y_min y_max : ℚ) (vals : List (Option ℚ)) : List ℚ :=
  vals.filterMap (fun o =>
    match o with
    | none => none
    | some v => if v ≤ y_max ∧ v ≥ y_min then some v else none)

/-- Source line 87: `values[values > y_max]`. -/
def out_of_bounds_top (y_max : ℚ) (vals : List (Option ℚ)) : List ℚ :=
  vals.filterMap (fun o =>
    match o with
    | none => none
    | some v => if v > y_max then some v else none)

/-- Source line 88: `values[values < y_min]`. -/
def out_of_bounds_bottom (y_min : ℚ) (vals : List (Option ℚ)) : List ℚ :=
  vals.filterMap (fun o =>
    match o with
    | none => none
    | some v => if v < y_min then some v else none)

/-! ### Out-of-bounds markers (source lines 90-93) -/

structure Marker where
  x : ℕ
  y : ℚ
  glyph : Char
  deriving Repr, DecidableEq

/-- Source lines 90-93: one `ax_scatter.text` call per out-of-bounds value,
at `y_max * 0.98` with glyph caret for values above the window and at
`y_min * 1.02` with glyph letter v for values below. -/
def markersFor (x_pos : ℕ) (y_min y_max : ℚ) (vals : List (Option ℚ)) :
    List Marker :=
  (out_of_bounds_top y_max vals).map
    (fun _ => { x := x_pos, y := y_max * (98/100), glyph := '^' })
  ++ (out_of_bounds_bottom y_min vals).map
    (fun _ => { x := x_pos, y := y_min * (102/100), glyph := 'v' })

/-! ### Histogram bin derivation (source lines 120-131) -/

/-- Model of `np.linspace(a, b, n)` with `endpoint=True`: `n` equally
spaced points from `a` to `b` inclusive. -/
def linspace (a b : ℚ) (n : ℕ) : List ℚ :=
  if n = 1 then [a]
  else (List.range n).map (fun i : ℕ => a + (b - a) * (i : ℚ) / ((n : ℚ) - 1))

/-- Source lines 122-123: `bin_size = tolerance_range * BIN_SIZE_FRACTION`. -/
def bin_size (lower upper : ℚ) : ℚ :=
  (upper - lower) * BIN_SIZE_FRACTION

/-- Source line 128: `num_bins = int(np.ceil(range_to_cover / bin_size))`,
in exact arithmetic. -/
def num_bins (lower upper y_min y_max : ℚ) : ℤ :=
  ⌈(y_max - y_min) / bin_size lower upper⌉

/-- Source lines 120-131, tolerance-fraction bin derivation.  When
`bin_size = 0` the Python floats give `0.0/0.0 = NaN` (or `x/0.0 = inf`),
and `int(np.ceil(...))` on line 128 raises; the `Except.error` branch
models that uncaught exception.  Otherwise the result is the
`np.linspace(y_min, y_max, num_bins + 1)` edge list of line 131. -/
def binsTF (lower upper y_min y_max : ℚ) : Except String (List ℚ) :=
  if bin_size lower upper = 0 then
    Except.error "ValueError: cannot convert float NaN to integer"
  else
    Except.ok (linspace y_min y_max ((num_bins lower upper y_min y_max).toNat + 1))

/-! ### Per-group processing and the run loop (source lines 50-164) -/

structure GroupData where
  param : String
  desc : String
  lower_limit : ℚ
  upper_limit : ℚ
  values : List (Option ℚ)
  save_fails : Bool
  deriving Repr

/-- Source line 62: warning printed for inverted limits. -/
def warningLine (g : GroupData) : String :=
  "Warning: Inverted limits found for " ++ g.param ++ ": lower_limit (" ++
    toString g.lower_limit ++ ") > upper_limit (" ++
    toString g.upper_limit ++ ")"

/-- Source line 162: the message logged when saving a group's plot raises. -/
def saveErrorLine (g : GroupData) : String :=
  "Error saving plot for " ++ g.param ++ " - " ++ g.desc ++ ": save failed"

/-- Source line 164: the final summary print. -/
def summaryLine : String :=
  "Scatter plots and histograms have been saved to the folder: scatter_plots"

/-- One iteration of the loop at source lines 50-162.  The window is
derived (warning when limits are inverted); when the group has numeric
values the histogram bins are derived, whose failure is an uncaught
exception (`Except.error`) aborting the run; only the save step (lines
154-162) sits inside a `try/except`, whose handler logs and continues.
`save_fails` models the environment making `savefig` raise. -/
def processGroup (g : GroupData) : Except String (List String) :=
  let w := deriveWindow g.lower_limit g.upper_limit
  let warnLogs := if g.lower_limit > g.upper_limit then [warningLine g] else []
  let histo : Except String Unit :=
    if (numericValues g.values).length > 0 then
      match binsTF w.lower w.upper w.y_min w.y_max with
      | Except.error e => Except.error e
      | Except.ok _ => Except.ok ()
    else Except.ok ()
  match histo with
  | Except.error e => Except.error e
  | Except.ok _ =>
    Except.ok (warnLogs ++ (if g.save_fails then [saveErrorLine g] else []))

/-- The loop over groups: an uncaught exception in any group aborts the
remaining iterations. -/
def runGroups : List GroupData → Except String (List String)
  | [] => Except.ok []
  | g :: gs =>
    match processGroup g with
    | Except.error e => Except.error e
    | Except.ok logs =>
      match runGroups gs with
      | Except.error e => Except.error e
      | Except.ok rest => Except.ok (logs ++ rest)

/-- The whole loop followed by the summary print of line 164; the summary
is reached only when no uncaught exception escaped a group. -/
def runAll (gs : List GroupData) : Except String (List String) :=
  match runGroups gs with
  | Except.error e => Except.error e
  | Except.ok logs => Except.ok (logs ++ [summaryLine])

/-- The script top level: the column check of lines 36-40 runs before any
group is processed; its `ValueError` halts the run. -/
def runProgram (cols : List String) (gs : List GroupData) :
    Except String (List String) :=
  match checkColumns (renameColumns cols) with
  | Except.error missing =>
    Except.error ("The CSV file is missing the following columns: " ++
      String.intercalate ", " missing)
  | Except.ok _ => runAll gs

/-! ### Helper lemmas -/

theorem deriveWindow_y_min_le_y_max (l u : ℚ) :
    (deriveWindow l u).y_min ≤ (deriveWindow l u).y_max := by
  unfold deriveWindow padFraction
  split <;> simp <;> linarith

theorem deriveWindow_lower_le_upper (l u : ℚ) :
    (deriveWindow l u).lower ≤ (deriveWindow l u).upper := by
  unfold deriveWindow
  split <;> simp <;> linarith

theorem deriveWindow_lower_lt_upper (l u : ℚ) (h : l ≠ u) :
    (deriveWindow l u).lower < (deriveWindow l u).upper := by
  unfold deriveWindow
  split <;> simp
  · linarith
  · rcases lt_or_gt_of_ne h with h1 | h1
    · exact h1
    · linarith

theorem deriveWindow_span (l u : ℚ) :
    (deriveWindow l u).y_max - (deriveWindow l u).y_min =
      ((deriveWindow l u).upper - (deriveWindow l u).lower) * (6/5) := by
  unfold deriveWindow padFraction
  split <;> simp <;> ring

theorem in_bounds_nil (a b : ℚ) : in_bounds a b [] = [] := rfl

theorem in_bounds_cons_none (a b : ℚ) (rest : List (Option ℚ)) :
    in_bounds a b (none :: rest) = in_bounds a b rest := rfl

theorem in_bounds_cons_some (a b x : ℚ) (rest : List (Option ℚ)) :
    in_bounds a b (some x :: rest) =
      if x ≤ b ∧ x ≥ a then x :: in_bounds a b rest else in_bounds a b rest := by
  by_cases h : x ≤ b ∧ x ≥ a
  all_goals simp [in_bounds, List.filterMap_cons, h]

theorem out_top_nil (b : ℚ) : out_of_bounds_top b [] = [] := rfl

theorem out_top_cons_none (b : ℚ) (rest : List (Option ℚ)) :
    out_of_bounds_top b (none :: rest) = out_of_bounds_top b rest := rfl

theorem out_top_cons_some (b x : ℚ) (rest : List (Option ℚ)) :
    out_of_bounds_top b (some x :: rest) =
      if x > b then x :: out_of_bounds_top b rest else out_of_bounds_top b rest := by
  by_cases h : x > b
  all_goals simp [out_of_bounds_top, List.filterMap_cons, h]

theorem out_bottom_nil (a : ℚ) : out_of_bounds_bottom a [] = [] := rfl

theorem out_bottom_cons_none (a : ℚ) (rest : List (Option ℚ)) :
    out_of_bounds_bottom a (none :: rest) = out_of_bounds_bottom a rest := rfl

theorem out_bottom_cons_some (a x : ℚ) (rest : List (Option ℚ)) :
    out_of_bounds_bottom a (some x :: rest) =
      if x < a then x :: out_of_bounds_bottom a rest
      else out_of_bounds_bottom a rest := by
  by_cases h : x < a
  all_goals simp [out_of_bounds_bottom, List.filterMap_cons, h]

theorem bin_size_ne_zero (lower upper : ℚ) (h : lower ≠ upper) :
    bin_size lower upper ≠ 0 := by
  simp only [bin_size, BIN_SIZE_FRACTION]
  intro h0
  rcases mul_eq_zero.1 h0 with h1 | h1
  · exact h (by linarith [sub_eq_zero.1 h1])
  · norm_num at h1

theorem binsTF_ok (lower upper a b : ℚ) (h : lower ≠ upper) :
    binsTF lower upper a b =
      Except.ok (linspace a b ((num_bins lower upper a b).toNat + 1)) := by
  rw [binsTF, if_neg (bin_size_ne_zero lower upper h)]

theorem linspace_length (a b : ℚ) (n : ℕ) : (linspace a b n).length = n := by
  rw [linspace]
  split
  · simp [*]
  · rw [List.length_map, List.length_range]

theorem num_bins_deriveWindow (l u : ℚ) (h : l ≠ u) :
    num_bins (deriveWindow l u).lower (deriveWindow l u).upper
      (deriveWindow l u).y_min (deriveWindow l u).y_max = 24 := by
  have hlt := deriveWindow_lower_lt_upper l u h
  have hspan := deriveWindow_span l u
  rw [num_bins]
  have hq : ((deriveWindow l u).y_max - (deriveWindow l u).y_min) /
      bin_size (deriveWindow l u).lower (deriveWindow l u).upper = 24 := by
    rw [div_eq_iff (bin_size_ne_zero _ _ (ne_of_lt hlt)), hspan, bin_size,
      BIN_SIZE_FRACTION]
    ring
  rw [hq]
  norm_num

theorem processGroup_ok (g : GroupData)
    (h : g.lower_limit = g.upper_limit → numericValues g.values = []) :
    processGroup g = Except.ok
      ((if g.lower_limit > g.upper_limit then [warningLine g] else []) ++
        (if g.save_fails then [saveErrorLine g] else [])) := by
  by_cases he : g.lower_limit = g.upper_limit
  · have hv : numericValues g.values = [] := h he
    simp [processGroup, hv]
  · have hne : (deriveWindow g.lower_limit g.upper_limit).lower ≠
        (deriveWindow g.lower_limit g.upper_limit).upper :=
      ne_of_lt (deriveWindow_lower_lt_upper _ _ he)
    simp [processGroup, binsTF_ok _ _ _ _ hne]

theorem runGroups_ok (gs : List GroupData)
    (h : ∀ g ∈ gs, g.lower_limit = g.upper_limit → numericValues g.values = []) :
    ∃ logs : List String, runGroups gs = Except.ok logs ∧
      ∀ g ∈ gs, g.save_fails = true → saveErrorLine g ∈ logs := by
  induction gs with
  | nil => exact ⟨[], rfl, by simp⟩
  | cons g gs ih =>
    obtain ⟨logs, hl, hmem⟩ := ih (fun g' hg' => h g' (List.mem_cons_of_mem _ hg'))
    refine ⟨((if g.lower_limit > g.upper_limit then [warningLine g] else []) ++
      (if g.save_fails then [saveErrorLine g] else [])) ++ logs, ?_, ?_⟩
    · simp only [runGroups, processGroup_ok g (h g (List.mem_cons_self g gs)), hl]
    · intro g' hg' hs
      rcases List.mem_cons.1 hg' with rfl | hg'
      · apply List.mem_append_left
        apply List.mem_append_right
        simp [hs]
      · exact List.mem_append_right _ (hmem g' hg' hs)

/-! ### Claim theorems -/

/-- C1: for every measurement value of a unit, after numeric coercion,
exactly one of the three classes claims it — `in_bounds` when
y_min ≤ v ≤ y_max (inclusive), `out_of_bounds_top` when v > y_max,
`out_of_bounds_bottom` when v < y_min — and non-numeric (`none`) values
are excluded from all three: the multiplicity of each rational v across
the three classes equals its multiplicity in the input, and the three
class sizes sum to the number of coerced numeric values. -/
theorem trv_c1_classification_partition (l u : ℚ) (vals : List (Option ℚ))
    (v : ℚ) :
    ((in_bounds (deriveWindow l u).y_min (deriveWindow l u).y_max vals).count v
      + (out_of_bounds_top (deriveWindow l u).y_max vals).count v
      + (out_of_bounds_bottom (deriveWindow l u).y_min vals).count v
      = vals.count (some v))
    ∧ ((in_bounds (deriveWindow l u).y_min (deriveWindow l u).y_max vals).length
      + (out_of_bounds_top (deriveWindow l u).y_max vals).length
      + (out_of_bounds_bottom (deriveWindow l u).y_min vals).length
      = (numericValues vals).length) := by
  have hab := deriveWindow_y_min_le_y_max l u
  induction vals with
  | nil =>
    simp [in_bounds_nil, out_top_nil, out_bottom_nil, numericValues]
  | cons o rest ih =>
    obtain ⟨ih1, ih2⟩ := ih
    cases o with
    | none =>
      simp only [in_bounds_cons_none, out_top_cons_none, out_bottom_cons_none,
        numericValues, List.filterMap_cons, id] at *
      constructor
      · rw [List.count_cons]
        simp [ih1]
      · exact ih2
    | some x =>
      rcases lt_trichotomy x (deriveWindow l u).y_min with hx | hx | hx
      · have h1 : ¬ (x ≤ (deriveWindow l u).y_max ∧ x ≥ (deriveWindow l u).y_min) := by
          rintro ⟨-, h2⟩; linarith
        have h2 : ¬ x > (deriveWindow l u).y_max := by linarith
        constructor
        · rw [in_bounds_cons_some, out_top_cons_some, out_bottom_cons_some,
            if_neg h1, if_neg h2, if_pos hx, List.count_cons, List.count_cons]
          by_cases hxv : x = v <;> simp [hxv, ih1] <;> omega
        · rw [in_bounds_cons_some, out_top_cons_some, out_bottom_cons_some,
            if_neg h1, if_neg h2, if_pos hx]
          simp only [numericValues, List.filterMap_cons, id] at *
          simp only [List.length_cons]
          omega
      · have h1 : x ≤ (deriveWindow l u).y_max ∧ x ≥ (deriveWindow l u).y_min := by
          constructor <;> [linarith; exact le_of_eq hx.symm]
        have h2 : ¬ x > (deriveWindow l u).y_max := by
          rcases h1 with ⟨h1a, -⟩; exact not_lt.2 h1a
        have h3 : ¬ x < (deriveWindow l u).y_min := by
          exact not_lt.2 (le_of_eq hx.symm)
        constructor
        · rw [in_bounds_cons_some, out_top_cons_some, out_bottom_cons_some,
            if_pos h1, if_neg h2, if_neg h3, List.count_cons, List.count_cons]
          by_cases hxv : x = v <;> simp [hxv, ih1] <;> omega
        · rw [in_bounds_cons_some, out_top_cons_some, out_bottom_cons_some,
            if_pos h1, if_neg h2, if_neg h3]
          simp only [numericValues, List.filterMap_cons, id] at *
          simp only [List.length_cons]
          omega
      · by_cases hxb : x ≤ (deriveWindow l u).y_max
        · have h1 : x ≤ (deriveWindow l u).y_max ∧ x ≥ (deriveWindow l u).y_min :=
            ⟨hxb, le_of_lt hx⟩
          have h2 : ¬ x > (deriveWindow l u).y_max := not_lt.2 hxb
          have h3 : ¬ x < (deriveWindow l u).y_min := not_lt.2 (le_of_lt hx)
          constructor
          · rw [in_bounds_cons_some, out_top_cons_some, out_bottom_cons_some,
              if_pos h1, if_neg h2, if_neg h3, List.count_cons, List.count_cons]
            by_cases hxv : x = v <;> simp [hxv, ih1] <;> omega
          · rw [in_bounds_cons_some, out_top_cons_some, out_bottom_cons_some,
              if_pos h1, if_neg h2, if_neg h3]
            simp only [numericValues, List.filterMap_cons, id] at *
            simp only [List.length_cons]
            omega
        · have h1 : ¬ (x ≤ (deriveWindow l u).y_max ∧ x ≥ (deriveWindow l u).y_min) := by
            rintro ⟨h1a, -⟩; exact hxb h1a
          have h2 : x > (deriveWindow l u).y_max := lt_of_not_le hxb
          have h3 : ¬ x < (deriveWindow l u).y_min := not_lt.2 (le_of_lt hx)
          constructor
          · rw [in_bounds_cons_some, out_top_cons_some, out_bottom_cons_some,
              if_neg h1, if_pos h2, if_neg h3, List.count_cons, List.count_cons]
            by_cases hxv : x = v <;> simp [hxv, ih1] <;> omega
          · rw [in_bounds_cons_some, out_top_cons_some, out_bottom_cons_some,
              if_neg h1, if_pos h2, if_neg h3]
            simp only [numericValues, List.filterMap_cons, id] at *
            simp only [List.length_cons]
            omega

theorem deriveWindow_10_20 :
    deriveWindow 10 20 =
      { lower := 10, upper := 20, warned := false, y_min := 9, y_max := 21 } := by
  rw [deriveWindow, if_neg (by norm_num)]
  simp only [LimitWindow.mk.injEq, padFraction]
  norm_num

/-- C2: for corrected limits l ≤ u the padded window is
y_min = l − (u − l) × pad and y_max = u + (u − l) × pad with pad = 0.1;
limits (10, 20) yield the window (9, 21), where 25 classifies as
out-of-bounds above, 15 as in-bounds and 5 as out-of-bounds below. -/
theorem trv_c2_window_formula (l u : ℚ) (h : l ≤ u) :
    (deriveWindow l u).y_min = l - (u - l) * padFraction ∧
    (deriveWindow l u).y_max = u + (u - l) * padFraction ∧
    deriveWindow 10 20 =
      { lower := 10, upper := 20, warned := false, y_min := 9, y_max := 21 } ∧
    out_of_bounds_top (deriveWindow 10 20).y_max [some 25] = [25] ∧
    in_bounds (deriveWindow 10 20).y_min (deriveWindow 10 20).y_max
      [some 15] = [15] ∧
    out_of_bounds_bottom (deriveWindow 10 20).y_min [some 5] = [5] := by
  refine ⟨?_, ?_, deriveWindow_10_20, ?_, ?_, ?_⟩
  · rw [deriveWindow, if_neg (not_lt.2 h)]
  · rw [deriveWindow, if_neg (not_lt.2 h)]
  · rw [deriveWindow_10_20, out_top_cons_some, if_pos (by norm_num), out_top_nil]
  · rw [deriveWindow_10_20, in_bounds_cons_some, if_pos (by norm_num),
      in_bounds_nil]
  · rw [deriveWindow_10_20, out_bottom_cons_some, if_pos (by norm_num),
      out_bottom_nil]

/-- Witness for C2 at the concrete limits (10, 20). -/
theorem trv_c2_window_formula_witness :
    (10 : ℚ) ≤ 20 ∧
    ((deriveWindow 10 20).y_min = 10 - (20 - 10) * padFraction ∧
     (deriveWindow 10 20).y_max = 20 + (20 - 10) * padFraction ∧
     deriveWindow 10 20 =
       { lower := 10, upper := 20, warned := false, y_min := 9, y_max := 21 } ∧
     out_of_bounds_top (deriveWindow 10 20).y_max [some 25] = [25] ∧
     in_bounds (deriveWindow 10 20).y_min (deriveWindow 10 20).y_max
       [some 15] = [15] ∧
     out_of_bounds_bottom (deriveWindow 10 20).y_min [some 5] = [5]) :=
  ⟨by norm_num, trv_c2_window_formula 10 20 (by norm_num)⟩

/-- C3 (code bug): bin derivation on degenerate limits (lower = upper,
hence y_min = y_max) does not yield an empty BinSpec — it performs the
zero-by-zero division `range_to_cover / bin_size`, and
`int(np.ceil(...))` raises on the resulting NaN; the uncaught exception
aborts the whole run, summary line and all. -/
theorem trv_c3_degenerate_crash :
    binsTF 5 5 (deriveWindow 5 5).y_min (deriveWindow 5 5).y_max =
      Except.error "ValueError: cannot convert float NaN to integer" ∧
    runAll [{ param := "P1", desc := "d1", lower_limit := 5, upper_limit := 5,
              values := [some 3], save_fails := false }] =
      Except.error "ValueError: cannot convert float NaN to integer" := by
  have hb0 : bin_size 5 5 = 0 := by norm_num [bin_size, BIN_SIZE_FRACTION]
  constructor
  · rw [binsTF, if_pos hb0]
  · simp [runAll, runGroups, processGroup, numericValues, binsTF, hb0,
      deriveWindow]

/-- C4: when a group's first row has lower_limit > upper_limit, the
limits are swapped before window derivation, the non-fatal warning is
emitted, and the group is still processed to completion; limits (20, 10)
are corrected to (10, 20) yielding the same window (9, 21) as
Scenario A. -/
theorem trv_c4_inverted_limits (g : GroupData)
    (h : g.upper_limit < g.lower_limit) :
    (deriveWindow g.lower_limit g.upper_limit).lower = g.upper_limit ∧
    (deriveWindow g.lower_limit g.upper_limit).upper = g.lower_limit ∧
    (deriveWindow g.lower_limit g.upper_limit).warned = true ∧
    (∃ logs, processGroup g = Except.ok logs ∧ warningLine g ∈ logs) ∧
    deriveWindow 20 10 =
      { lower := 10, upper := 20, warned := true, y_min := 9, y_max := 21 } := by
  refine ⟨?_, ?_, ?_, ?_, ?_⟩
  · rw [deriveWindow, if_pos h]
  · rw [deriveWindow, if_pos h]
  · rw [deriveWindow, if_pos h]
  · rw [processGroup_ok g (fun he => absurd he (ne_of_gt h))]
    refine ⟨_, rfl, List.mem_append_left _ ?_⟩
    simp [h]
  · rw [deriveWindow, if_pos (by norm_num)]
    simp only [LimitWindow.mk.injEq, padFraction]
    norm_num

/-- Witness for C4 at the concrete inverted group (20, 10). -/
theorem trv_c4_inverted_limits_witness :
    ({ param := "P4", desc := "d4", lower_limit := 20, upper_limit := 10,
       values := [some 15], save_fails := false } : GroupData).upper_limit <
      ({ param := "P4", desc := "d4", lower_limit := 20, upper_limit := 10,
         values := [some 15], save_fails := false } : GroupData).lower_limit ∧
    ((deriveWindow 20 10).lower = 10 ∧
     (deriveWindow 20 10).upper = 20 ∧
     (deriveWindow 20 10).warned = true ∧
     (∃ logs, processGroup
        { param := "P4", desc := "d4", lower_limit := 20, upper_limit := 10,
          values := [some 15], save_fails := false } = Except.ok logs ∧
        warningLine
          { param := "P4", desc := "d4", lower_limit := 20, upper_limit := 10,
            values := [some 15], save_fails := false } ∈ logs) ∧
     deriveWindow 20 10 =
       { lower := 10, upper := 20, warned := true, y_min := 9, y_max := 21 }) :=
  ⟨by norm_num,
   trv_c4_inverted_limits
     { param := "P4", desc := "d4", lower_limit := 20, upper_limit := 10,
       values := [some 15], save_fails := false } (by norm_num)⟩

/-- C5 (Scenario D): limits (0, 100) with bin fraction 1/20 and pad 0.1
give bin_width 5, window (−10, 110), num_bins = ceil(120/5) = 24, and an
edge array of exactly 25 equally spaced points spanning [−10, 110]. -/
theorem trv_c5_scenario_d :
    bin_size 0 100 = 5 ∧
    deriveWindow 0 100 =
      { lower := 0, upper := 100, warned := false, y_min := -10, y_max := 110 } ∧
    num_bins 0 100 (-10) 110 = 24 ∧
    binsTF 0 100 (-10) 110 =
      Except.ok ((List.range 25).map (fun i : ℕ => (-10 : ℚ) + 5 * (i : ℚ))) ∧
    ((List.range 25).map (fun i : ℕ => (-10 : ℚ) + 5 * (i : ℚ))).length = 25 ∧
    ((List.range 25).map (fun i : ℕ => (-10 : ℚ) + 5 * (i : ℚ))).head? =
      some (-10) ∧
    ((List.range 25).map (fun i : ℕ => (-10 : ℚ) + 5 * (i : ℚ))).getLast? =
      some 110 ∧
    List.Chain' (fun x y => y - x = 5)
      ((List.range 25).map (fun i : ℕ => (-10 : ℚ) + 5 * (i : ℚ))) := by
  have h1 : bin_size 0 100 = 5 := by norm_num [bin_size, BIN_SIZE_FRACTION]
  have h3 : num_bins 0 100 (-10) 110 = 24 := by
    rw [num_bins, h1]
    norm_num
  refine ⟨h1, ?_, h3, ?_, by rw [List.length_map, List.length_range], ?_, ?_, ?_⟩
  · rw [deriveWindow, if_neg (by norm_num)]
    simp only [LimitWindow.mk.injEq, padFraction]
    norm_num
  · rw [binsTF_ok 0 100 _ _ (by norm_num), h3]
    show Except.ok (linspace (-10) 110 25) = _
    rw [linspace, if_neg (by norm_num)]
    refine congrArg _ (List.map_congr_left ?_)
    intro i hi
    push_cast
    ring
  · rw [List.range_succ_eq_map]
    simp
  · rw [List.range_succ, List.map_append]
    simp only [List.map_cons, List.map_nil, List.getLast?_concat]
    norm_num
  · rw [List.chain'_map]
    rw [show (25 : ℕ) = Nat.succ 24 from rfl, List.chain'_range_succ]
    intro m _
    push_cast
    ring

/-- C6 counterexample: a degenerate-geometry failure in the first group
is not caught by the per-group handler — the run aborts with the
uncaught exception, the second group is never processed, and no summary
line is printed. -/
theorem trv_c6_counterexample :
    runAll [{ param := "P6", desc := "d6", lower_limit := 7, upper_limit := 7,
              values := [some 1], save_fails := false },
            { param := "Q6", desc := "e6", lower_limit := 0, upper_limit := 10,
              values := [some 1], save_fails := false }] =
      Except.error "ValueError: cannot convert float NaN to integer" := by
  have hb0 : bin_size 7 7 = 0 := by norm_num [bin_size, BIN_SIZE_FRACTION]
  simp [runAll, runGroups, processGroup, numericValues, binsTF, hb0,
    deriveWindow]

/-- C6 amended: failures in the save step are caught and logged with the
group's parameter and description and processing continues to the next
group, and the run ends with the summary line — provided no group hits
the uncaught degenerate-geometry crash in bin derivation (equal limits
with at least one numeric value). -/
theorem trv_c6_save_failures_caught (gs : List GroupData)
    (h : ∀ g ∈ gs, g.lower_limit = g.upper_limit → numericValues g.values = []) :
    ∃ logs : List String, runAll gs = Except.ok (logs ++ [summaryLine]) ∧
      ∀ g ∈ gs, g.save_fails = true → saveErrorLine g ∈ logs := by
  obtain ⟨logs, hl, hmem⟩ := runGroups_ok gs h
  exact ⟨logs, by rw [runAll, hl], hmem⟩

/-- Witness for the amended C6 on a one-group batch whose save step
fails. -/
theorem trv_c6_save_failures_caught_witness :
    (∀ g ∈ [({ param := "W6", desc := "x6", lower_limit := 0, upper_limit := 10,
               values := [some 3], save_fails := true } : GroupData)],
       g.lower_limit = g.upper_limit → numericValues g.values = []) ∧
    (∃ logs : List String,
      runAll [({ param := "W6", desc := "x6", lower_limit := 0, upper_limit := 10,
                 values := [some 3], save_fails := true } : GroupData)] =
        Except.ok (logs ++ [summaryLine]) ∧
      ∀ g ∈ [({ param := "W6", desc := "x6", lower_limit := 0, upper_limit := 10,
                values := [some 3], save_fails := true } : GroupData)],
        g.save_fails = true → saveErrorLine g ∈ logs) :=
  ⟨by
    intro g hg
    rw [List.mem_singleton] at hg
    subst hg
    intro h0
    norm_num at h0,
   trv_c6_save_failures_caught _ (by
    intro g hg
    rw [List.mem_singleton] at hg
    subst hg
    intro h0
    norm_num at h0)⟩

theorem checkColumns_error (cols : List String)
    (h : missing_columns cols ≠ []) :
    checkColumns cols = Except.error (missing_columns cols) := by
  rw [checkColumns, if_neg]
  intro hall
  apply h
  rw [missing_columns, List.filter_eq_nil_iff]
  intro c hc
  have hmem := List.all_eq_true.1 hall c hc
  simp only [List.contains, List.elem_iff] at hmem
  simp [hmem]

/-- C7: when any required column is absent after renaming, the check
raises a ValueError naming exactly the absent columns and the whole run
halts before any group is processed. -/
theorem trv_c7_missing_columns (cols : List String) (gs : List GroupData)
    (h : missing_columns (renameColumns cols) ≠ []) :
    checkColumns (renameColumns cols) =
      Except.error (missing_columns (renameColumns cols)) ∧
    runProgram cols gs =
      Except.error ("The CSV file is missing the following columns: " ++
        String.intercalate ", " (missing_columns (renameColumns cols))) := by
  have hc := checkColumns_error _ h
  exact ⟨hc, by rw [runProgram, hc]⟩

/-- Witness for C7 on a table with a single unrecognised column, before
any groups. -/
theorem trv_c7_missing_columns_witness :
    missing_columns (renameColumns ["foo"]) ≠ [] ∧
    (checkColumns (renameColumns ["foo"]) =
       Except.error (missing_columns (renameColumns ["foo"])) ∧
     runProgram ["foo"] [] =
       Except.error ("The CSV file is missing the following columns: " ++
         String.intercalate ", " (missing_columns (renameColumns ["foo"])))) :=
  ⟨by decide, trv_c7_missing_columns ["foo"] [] (by decide)⟩

/-- C8: each out-of-bounds value yields exactly one marker at the unit's
x-position; above-markers sit at 98% of y_max and below-markers at 102%
of y_min, positions that depend only on the window edge and not on the
data value, so all markers of one side for a unit coincide. -/
theorem trv_c8_marker_placement (x : ℕ) (l u : ℚ) (vals : List (Option ℚ)) :
    ((markersFor x (deriveWindow l u).y_min (deriveWindow l u).y_max vals).length =
      (out_of_bounds_top (deriveWindow l u).y_max vals).length +
      (out_of_bounds_bottom (deriveWindow l u).y_min vals).length) ∧
    (∀ m ∈ markersFor x (deriveWindow l u).y_min (deriveWindow l u).y_max vals,
      m.x = x ∧
      (m.glyph = '^' → m.y = (deriveWindow l u).y_max * (98/100)) ∧
      (m.glyph = 'v' → m.y = (deriveWindow l u).y_min * (102/100))) ∧
    (∀ m1 ∈ markersFor x (deriveWindow l u).y_min (deriveWindow l u).y_max vals,
      ∀ m2 ∈ markersFor x (deriveWindow l u).y_min (deriveWindow l u).y_max vals,
      m1.glyph = m2.glyph → m1 = m2) := by
  have hud : ('^' : Char) ≠ 'v' := by decide
  have hdu : ('v' : Char) ≠ '^' := by decide
  refine ⟨by simp [markersFor], ?_, ?_⟩
  · intro m hm
    rcases List.mem_append.1 hm with hm' | hm' <;>
      obtain ⟨v, hv, rfl⟩ := List.mem_map.1 hm'
    · exact ⟨rfl, fun _ => rfl, fun hg => absurd hg hud⟩
    · exact ⟨rfl, fun hg => absurd hg hdu, fun _ => rfl⟩
  · intro m1 h1 m2 h2 hg
    rcases List.mem_append.1 h1 with h1' | h1' <;>
      rcases List.mem_append.1 h2 with h2' | h2' <;>
        obtain ⟨v1, hv1, rfl⟩ := List.mem_map.1 h1' <;>
          obtain ⟨v2, hv2, rfl⟩ := List.mem_map.1 h2'
    · rfl
    · exact absurd hg hud
    · exact absurd hg hdu
    · rfl

/-- C10: for every group whose corrected limits are distinct, exact
arithmetic makes the tolerance-fraction derivation produce exactly 24
bins (25 edges) whatever the limit values: the padded range is 1.2 times
the tolerance while a bin is 1/20 of it, so the ratio is exactly 24. -/
theorem trv_c10_always_24_bins (l u : ℚ) (h : l ≠ u) :
    num_bins (deriveWindow l u).lower (deriveWindow l u).upper
      (deriveWindow l u).y_min (deriveWindow l u).y_max = 24 ∧
    binsTF (deriveWindow l u).lower (deriveWindow l u).upper
      (deriveWindow l u).y_min (deriveWindow l u).y_max =
      Except.ok (linspace (deriveWindow l u).y_min (deriveWindow l u).y_max 25) ∧
    (linspace (deriveWindow l u).y_min (deriveWindow l u).y_max 25).length = 25 := by
  have hnb := num_bins_deriveWindow l u h
  have hne : (deriveWindow l u).lower ≠ (deriveWindow l u).upper :=
    ne_of_lt (deriveWindow_lower_lt_upper l u h)
  refine ⟨hnb, ?_, linspace_length _ _ _⟩
  rw [binsTF_ok _ _ _ _ hne, hnb]
  rfl

/-- Witness for C10 at the concrete limits (0, 1). -/
theorem trv_c10_always_24_bins_witness :
    (0 : ℚ) ≠ 1 ∧
    (num_bins (deriveWindow 0 1).lower (deriveWindow 0 1).upper
       (deriveWindow 0 1).y_min (deriveWindow 0 1).y_max = 24 ∧
     binsTF (deriveWindow 0 1).lower (deriveWindow 0 1).upper
       (deriveWindow 0 1).y_min (deriveWindow 0 1).y_max =
       Except.ok (linspace (deriveWindow 0 1).y_min (deriveWindow 0 1).y_max 25) ∧
     (linspace (deriveWindow 0 1).y_min (deriveWindow 0 1).y_max 25).length = 25) :=
  ⟨by norm_num, trv_c10_always_24_bins 0 1 (by norm_num)⟩

/-! ### Sanitization: structural facts feeding idempotence (C9) -/

/-- What a fully sanitized character list looks like: only characters of
the allowed class, no two adjacent underscores, and no underscore at
either end. -/
def SanitizedChars (l : List Char) : Prop :=
  (∀ c ∈ l, allowedChar c = true) ∧
  List.Chain' (fun a b => ¬(a = '_' ∧ b = '_')) l ∧
  (∀ c, l.head? = some c → c ≠ '_') ∧
  (∀ c, l.getLast? = some c → c ≠ '_')

theorem mem_replaceDisallowed (l : List Char) :
    ∀ c ∈ replaceDisallowed l, allowedChar c = true := by
  intro c hc
  obtain ⟨d, -, rfl⟩ := List.mem_map.1 hc
  by_cases hd : allowedChar d
  · rwa [if_pos hd]
  · rw [if_neg hd]
    decide

theorem replaceDisallowed_eq_self (l : List Char)
    (h : ∀ c ∈ l, allowedChar c = true) : replaceDisallowed l = l := by
  induction l with
  | nil => rfl
  | cons c cs ih =>
    rw [replaceDisallowed, List.map_cons,
      if_pos (h c (List.mem_cons_self c cs))]
    exact congrArg _ (ih (fun d hd => h d (List.mem_cons_of_mem c hd)))

theorem collapseU_head? (l : List Char) (h : l ≠ []) :
    (collapseU l).head? = l.head? := by
  induction l using collapseU.induct with
  | case1 => simp at h
  | case2 c => rfl
  | case3 c1 c2 cs hc ih =>
    rw [collapseU, if_pos hc, ih (by simp), List.head?_cons, List.head?_cons,
      hc.1, hc.2]
  | case4 c1 c2 cs hc ih =>
    rw [collapseU, if_neg hc]
    rfl

theorem collapseU_chain' (l : List Char) :
    List.Chain' (fun a b => ¬(a = '_' ∧ b = '_')) (collapseU l) := by
  induction l using collapseU.induct with
  | case1 => exact List.chain'_nil
  | case2 c => exact List.chain'_singleton c
  | case3 c1 c2 cs hc ih => rwa [collapseU, if_pos hc]
  | case4 c1 c2 cs hc ih =>
    rw [collapseU, if_neg hc]
    refine List.chain'_cons'.2 ⟨?_, ih⟩
    intro y hy
    rw [collapseU_head? (c2 :: cs) (by simp), List.head?_cons,
      Option.mem_def, Option.some.injEq] at hy
    subst hy
    exact hc

theorem collapseU_subset (l : List Char) : ∀ a ∈ collapseU l, a ∈ l := by
  induction l using collapseU.induct with
  | case1 => simp [collapseU]
  | case2 c => simp [collapseU]
  | case3 c1 c2 cs hc ih =>
    rw [collapseU, if_pos hc]
    exact fun a ha => List.mem_cons_of_mem c1 (ih a ha)
  | case4 c1 c2 cs hc ih =>
    rw [collapseU, if_neg hc]
    intro a ha
    rcases List.mem_cons.1 ha with rfl | ha
    · exact List.mem_cons_self a _
    · exact List.mem_cons_of_mem c1 (ih a ha)

theorem collapseU_eq_self (l : List Char)
    (h : List.Chain' (fun a b => ¬(a = '_' ∧ b = '_')) l) :
    collapseU l = l := by
  induction l using collapseU.induct with
  | case1 => rfl
  | case2 c => rfl
  | case3 c1 c2 cs hc ih => exact absurd hc (List.chain'_cons.1 h).1
  | case4 c1 c2 cs hc ih =>
    rw [collapseU, if_neg hc]
    exact congrArg _ (ih (List.chain'_cons.1 h).2)

theorem chain'_dropWhile (p : Char → Bool) (l : List Char)
    (h : List.Chain' (fun a b => ¬(a = '_' ∧ b = '_')) l) :
    List.Chain' (fun a b => ¬(a = '_' ∧ b = '_')) (l.dropWhile p) := by
  induction l with
  | nil => exact h
  | cons c cs ih =>
    rw [List.dropWhile_cons]
    split
    · exact ih h.tail
    · exact h

theorem mem_dropWhile (p : Char → Bool) (l : List Char) (a : Char)
    (h : a ∈ l.dropWhile p) : a ∈ l :=
  List.Sublist.mem h (List.dropWhile_sublist p)

theorem head?_dropWhile_false (p : Char → Bool) (l : List Char) (c : Char)
    (h : (l.dropWhile p).head? = some c) : p c = false := by
  induction l with
  | nil => simp [List.dropWhile] at h
  | cons d ds ih =>
    rw [List.dropWhile_cons] at h
    by_cases hd : p d = true
    · rw [if_pos hd] at h
      exact ih h
    · rw [if_neg hd, List.head?_cons, Option.some.injEq] at h
      subst h
      exact Bool.not_eq_true _ ▸ (eq_false_of_ne_true hd)

theorem getLast?_dropWhile (p : Char → Bool) (l : List Char) (c : Char)
    (h : (l.dropWhile p).getLast? = some c) : l.getLast? = some c := by
  induction l with
  | nil => simp [List.dropWhile] at h
  | cons d ds ih =>
    rw [List.dropWhile_cons] at h
    by_cases hd : p d = true
    · rw [if_pos hd] at h
      have hds := ih h
      cases ds with
      | nil => simp at hds
      | cons e es => rw [List.getLast?_cons_cons]; exact hds
    · rwa [if_neg hd] at h

theorem dropWhile_eq_self_of_head (p : Char → Bool) (l : List Char)
    (h : ∀ c, l.head? = some c → p c = false) : l.dropWhile p = l := by
  cases l with
  | nil => rfl
  | cons d ds =>
    rw [List.dropWhile_cons, if_neg]
    rw [h d rfl]
    simp

theorem stripU_subset (l : List Char) : ∀ a ∈ stripU l, a ∈ l := by
  intro a ha
  rw [stripU, List.mem_reverse] at ha
  have h1 := mem_dropWhile _ _ _ ha
  rw [List.mem_reverse] at h1
  exact mem_dropWhile _ _ _ h1

theorem chain'_reverse_same (l : List Char)
    (h : List.Chain' (fun a b => ¬(a = '_' ∧ b = '_')) l) :
    List.Chain' (fun a b => ¬(a = '_' ∧ b = '_')) l.reverse := by
  rw [List.chain'_reverse]
  exact List.Chain'.imp (fun a b hab => fun hba => hab ⟨hba.2, hba.1⟩) h

theorem chain'_stripU (l : List Char)
    (h : List.Chain' (fun a b => ¬(a = '_' ∧ b = '_')) l) :
    List.Chain' (fun a b => ¬(a = '_' ∧ b = '_')) (stripU l) := by
  rw [stripU]
  exact chain'_reverse_same _ (chain'_dropWhile _ _
    (chain'_reverse_same _ (chain'_dropWhile _ _ h)))

theorem head?_stripU (l : List Char) (c : Char)
    (h : (stripU l).head? = some c) : c ≠ '_' := by
  rw [stripU, List.head?_reverse] at h
  have h1 := getLast?_dropWhile _ _ _ h
  rw [List.getLast?_reverse] at h1
  have h2 := head?_dropWhile_false _ _ _ h1
  intro hc
  subst hc
  simp at h2

theorem getLast?_stripU (l : List Char) (c : Char)
    (h : (stripU l).getLast? = some c) : c ≠ '_' := by
  rw [stripU, List.getLast?_reverse] at h
  have h2 := head?_dropWhile_false _ _ _ h
  intro hc
  subst hc
  simp at h2

theorem stripU_eq_self (l : List Char)
    (h1 : ∀ c, l.head? = some c → c ≠ '_')
    (h2 : ∀ c, l.getLast? = some c → c ≠ '_') : stripU l = l := by
  rw [stripU, stripLead, stripLead]
  rw [dropWhile_eq_self_of_head _ l
    (fun c hc => beq_eq_false_iff_ne.2 (h1 c hc))]
  rw [dropWhile_eq_self_of_head _ l.reverse
    (fun c hc => beq_eq_false_iff_ne.2 (h2 c (by rwa [List.head?_reverse] at hc)))]
  exact List.reverse_reverse l

theorem sanitizeList_sanitized (l : List Char) :
    SanitizedChars (sanitizeList l) := by
  refine ⟨?_, ?_, ?_, ?_⟩
  · intro c hc
    exact mem_replaceDisallowed l c
      (collapseU_subset _ c (stripU_subset _ c hc))
  · exact chain'_stripU _ (collapseU_chain' _)
  · exact head?_stripU _
  · exact getLast?_stripU _

theorem sanitizeList_eq_self (l : List Char) (h : SanitizedChars l) :
    sanitizeList l = l := by
  obtain ⟨h1, h2, h3, h4⟩ := h
  rw [sanitizeList, replaceDisallowed_eq_self l h1, collapseU_eq_self l h2,
    stripU_eq_self l h3 h4]

/-- C9: filename sanitization is idempotent — sanitizing an
already-sanitized string returns it unchanged. -/
theorem trv_c9_sanitize_idempotent (s : String) :
    sanitize_filename (sanitize_filename s) = sanitize_filename s :=
  congrArg String.mk
    (sanitizeList_eq_self (sanitizeList s.data)
      (sanitizeList_sanitized s.data))

end TRVAnalysis
